import Mathlib

/-!
Shallow embedding of the ariba cluster analysis engine
(`ariba/cluster.py`): the per-cluster pipeline that chooses a best
reference, subsamples reads, assembles them, compares the assembly to the
reference, extracts variants, and synthesizes report rows while
accumulating a status-flag bitset.

External collaborators (best-sequence chooser, assembler, comparator,
variant caller, external programs) are modelled as environment inputs:
each stage result is a field of `RunEnv`.  Pure helpers of `Cluster`
(`_number_of_reads_for_assembly`, `_make_reads_for_assembly`, `_clean`,
`_clean_file`, the variant-consequence loop) are translated directly from
the source.
-/

namespace Ariba

/-- A fasta/fastq record as produced by `pyfastaq.sequences.file_reader`:
an identifier and a nucleotide sequence.  `len(x)` in the source is the
length of the sequence string. -/
structure Sequence where
  id : String
  seq : String
deriving DecidableEq, Repr

/-- Modelled from the spec: `ariba/flag.py` is not under `src/`.  The spec
describes `flag.Flag` as a named bitset, a set of string tags with
additive updates.  We model the tag set as a duplicate-free list; `add`
appends a tag when it is not already present. -/
def flagAdd (tags : List String) (t : String) : List String :=
  if t ∈ tags then tags else tags ++ [t]

/-- Modelled from the spec: adding several tags at once, used for the
comparator status-flag update (`assembly_compare.update_flag`, not under
`src/`), which per the spec only decides status-flag additions. -/
def flagAddList (tags : List String) (new : List String) : List String :=
  new.foldl flagAdd tags

/-- Modelled from the spec: `flag.Flag.has`, membership test of a tag. -/
def flagHas (tags : List String) (t : String) : Bool :=
  tags.contains t

/-- Total length of the sequences of a fasta file, as computed by
`sum([len(x) for x in file_reader])` in `_number_of_reads_for_assembly`. -/
def seqLenSum (reference_fa : List Sequence) : Nat :=
  (reference_fa.map fun x => x.seq.length).sum

/-- The arithmetic of `Cluster._number_of_reads_for_assembly` after the
`assert ref_length > 0`: pad the reference length by twice the insert
size, divide the wanted bases (coverage times padded length) by the mean
read length, round up, and round odd counts up to even
(`wanted_reads += wanted_reads % 2`).  Python float division is modelled
by exact rational arithmetic. -/
def wantedReadCount (ref_length insert_size total_bases total_reads : Nat) (coverage : ℚ) : ℤ :=
  let refLen : ℚ := (ref_length : ℚ) + 2 * (insert_size : ℚ)
  let mean_read_length : ℚ := (total_bases : ℚ) / (total_reads : ℚ)
  let wanted_bases : ℚ := coverage * refLen
  let wanted_reads : ℤ := ⌈wanted_bases / mean_read_length⌉
  wanted_reads + wanted_reads % 2

/-- `Cluster._number_of_reads_for_assembly`: reads the reference fasta,
sums the sequence lengths, asserts the sum positive (modelled as an
`Except.error`, since a failed `assert` raises), and computes the wanted
read count. -/
def number_of_reads_for_assembly (reference_fa : List Sequence)
    (insert_size total_bases total_reads : Nat) (coverage : ℚ) : Except String ℤ :=
  let ref_length := seqLenSum reference_fa
  if ref_length = 0 then .error "assert ref_length > 0 failed"
  else .ok (wantedReadCount ref_length insert_size total_bases total_reads coverage)

/-- Modelled from the spec: CPython `random` module (external to the
repository).  `random.seed(seed)` followed by repeated
`random.randint(0, 100)` yields a sequence of draws in `0..100` that is a
pure function of the seed; only that determinism matters here, so a
simple concrete stream stands in for the Mersenne Twister. -/
def python_randints (seed : Nat) (n : Nat) : Nat :=
  (seed + 37 * n) % 101

/-- The subsampling loop of `Cluster._make_reads_for_assembly`: iterate
over file 1; for each record take the next record of file 2 (raising when
file 2 runs out first); keep the pair when the next random draw is at
most `percent_wanted`, counting 2 per kept pair. -/
def subsample_reads (draws : Nat → Nat) (percent_wanted : ℚ) :
    List Sequence → List Sequence → Except String (List Sequence × List Sequence × Nat)
  | [], _ => .ok ([], [], 0)
  | read1 :: _, [] =>
      .error ("Error subsetting reads. No mate found for read " ++ read1.id)
  | read1 :: rest1, read2 :: rest2 =>
      if ((draws 0 : ℚ) ≤ percent_wanted) then
        match subsample_reads (fun n => draws (n + 1)) percent_wanted rest1 rest2 with
        | .error e => .error e
        | .ok (out1, out2, reads_written) =>
            .ok (read1 :: out1, read2 :: out2, reads_written + 2)
      else
        match subsample_reads (fun n => draws (n + 1)) percent_wanted rest1 rest2 with
        | .error e => .error e
        | .ok (out1, out2, reads_written) => .ok (out1, out2, reads_written)

/-- `Cluster._make_reads_for_assembly`: seeds the random source, then
either subsamples pairs with probability `100 * wanted / total` percent,
or, when the wanted count is not below the total, symlinks the inputs
(modelled as returning the input file contents unchanged) and returns
`total_reads`. -/
def make_reads_for_assembly (number_of_wanted_reads : ℤ) (total_reads : Nat)
    (reads_in1 reads_in2 : List Sequence) (random_seed : Nat) :
    Except String (List Sequence × List Sequence × Nat) :=
  if number_of_wanted_reads < (total_reads : ℤ) then
    let percent_wanted : ℚ := 100 * (number_of_wanted_reads : ℚ) / (total_reads : ℚ)
    subsample_reads (python_randints random_seed) percent_wanted reads_in1 reads_in2
  else
    .ok (reads_in1, reads_in2, total_reads)

/-- Python center-format `format(s, c + CARET + str(width))` as used for
the log banners: pad `s` with the fill character to the given width,
extra fill going to the right. -/
def pyCenterPad (s : String) (width : Nat) (c : Char) : String :=
  if width ≤ s.length then s
  else
    let total := width - s.length
    let left := total / 2
    let right := total - left
    String.mk (List.replicate left c) ++ s ++ String.mk (List.replicate right c)

/-- The log banner printed at the start of `Cluster._run`. -/
def mkStartBanner (name : String) : String :=
  pyCenterPad (" LOG FILE START " ++ name ++ " ") 79 '_'

/-- The log banner printed at the end of `Cluster.run`. -/
def mkEndBanner (name : String) : String :=
  pyCenterPad (" LOG FILE END " ++ name ++ " ") 79 '_'

/-- Result fields of the external `assembly.Assembly` collaborator read
by `Cluster._run`. -/
structure AssemblyRes where
  assembled_ok : Bool
  has_contigs_on_both_strands : Bool
  scaff_graph_ok : Bool
deriving DecidableEq, Repr

/-- One report row.  Modelled from the spec: `ariba/report.py` is not
under `src/`; a row is a flattened join of cluster, reference and
status-flag data serialized for the summary layer.  Only the fields the
claims need are kept. -/
structure ReportRow where
  ref_name : Option String
  flag : List String
deriving DecidableEq, Repr

/-- The mutable state of one `Cluster` object that the claims are about:
status flags, assembly outcome, chosen reference, extracted variant
consequences, report rows, the files of the working directory, the log
lines, and whether the log handle is open. -/
structure ClusterState where
  status_flag : List String
  assembled_ok : Option Bool
  ref_sequence : Option Sequence
  ref_sequence_type : Option String
  assembly_variants : List (List (Option String))
  report_lines : Option (List ReportRow)
  files : List String
  log : List String
  log_open : Bool
deriving DecidableEq, Repr

/-- Constructor configuration of `Cluster.__init__` needed by the claims:
name, working directory, read totals, insert size, coverage target,
random seed, clean switch, and the content of the two input read files. -/
structure ClusterConfig where
  name : String
  root_dir : String
  total_reads : Nat
  total_reads_bases : Nat
  reads_insert : Nat
  assembly_coverage : ℚ
  random_seed : Nat
  clean : Bool
  all_reads1 : List Sequence
  all_reads2 : List Sequence
deriving DecidableEq, Repr

/-- The state of a freshly constructed cluster (`Cluster.__init__`): the
status flag is the empty bitset (`flag.Flag()`), nothing assembled or
chosen yet, the log handle unset. -/
def cluster_init (files : List String) : ClusterState :=
  { status_flag := []
    assembled_ok := none
    ref_sequence := none
    ref_sequence_type := none
    assembly_variants := []
    report_lines := none
    files := files
    log := []
    log_open := false }

/-- Outcomes of the external pipeline stages invoked by `Cluster._run`,
one field per collaborator call.  `.error` models the stage raising. -/
structure RunEnv where
  best_seq : Except String (Option Sequence)
  sequence_type : String → Option String
  assembly_run : Except String AssemblyRes
  bowtie2_map : Except String Unit
  compare_run : Except String (List String)
  get_variants : List (List (Option String))
  samtools_run : Except String Unit
  variants_in_coords : Bool

/-- The two exception classes a `Cluster` run can raise: the ariba
`Error` class (`cluster.Error`, also standing for the collaborator stage
errors the spec routes to the handler) and Python `AssertionError` from
the two `assert` statements, which is NOT a subclass of `Error` and is
therefore not caught by the `except Error` handler of `Cluster.run`. -/
inductive PyExc where
  | clusterError (msg : String)
  | assertionError (msg : String)
deriving DecidableEq, Repr

/-- `Cluster._clean_file`: when the clean switch is on, log the deletion
and unlink the file; otherwise do nothing. -/
def clean_file_st (clean : Bool) (st : ClusterState) (filename : String) : ClusterState :=
  if clean then
    { st with log := st.log ++ ["Deleting file " ++ filename]
              files := st.files.erase filename }
  else st

/-- The deletion loop of `Cluster._clean`: for each filename of the
deletion list, when the file exists, delete it via `_clean_file`. -/
def clean_delete_loop (clean : Bool) (st : ClusterState) (to_delete : List String) : ClusterState :=
  to_delete.foldl
    (fun s filename =>
      if filename ∈ s.files then clean_file_st clean s filename else s)
    st

/-- `Cluster._clean`: when the clean switch is off, only log the skip and
return; otherwise delete each file of the fixed list that exists in the
working directory. -/
def cluster_clean (clean : Bool) (root_dir : String) (st : ClusterState) : ClusterState :=
  if clean = false then
    { st with log := st.log ++ ["   ... not deleting anything because --noclean used"] }
  else
    let to_delete := [
      "assembly.fa",
      "assembly.fa.fai",
      "assembly_compare.nucmer.coords",
      "assembly_compare.nucmer.coords.snps",
      "assembly.reads_mapped.bam.bai",
      "assembly.reads_mapped.bam.vcf",
      "assembly.reads_mapped.bam",
      "assembly.reads_mapped.bam.read_depths.gz",
      "assembly.reads_mapped.bam.read_depths.gz.tbi",
      "reads_1.fq",
      "reads_2.fq",
      "reference.fa"
    ]
    let to_delete := to_delete.map fun x => root_dir ++ "/" ++ x
    clean_delete_loop clean st to_delete

/-- Modelled from the spec: `report.report_lines` is not under `src/`.
Per the spec, a cluster produces one reportable row per variant, or one
row with nulls when no variants were found, and a failure-annotated row
when the cluster did not assemble. -/
def report_lines (st : ClusterState) : List ReportRow :=
  let row : ReportRow := { ref_name := st.ref_sequence.map Sequence.id, flag := st.status_flag }
  if st.assembled_ok = some true then
    let n := (st.assembly_variants.map List.length).sum
    if n = 0 then [row] else List.replicate n row
  else [row]

/-- Add one tag to the status flag of the cluster,
`self.status_flag.add(tag)`. -/
def addFlagSt (st : ClusterState) (t : String) : ClusterState :=
  { st with status_flag := flagAdd st.status_flag t }

/-- The inner double loop of `Cluster._run` over one list of extracted
variants: any consequence outside `.`/`SYN`/`None` adds
`has_nonsynonymous_variants` and breaks. -/
def run_variant_loop_inner : List (Option String) → List String → List String
  | [], tags => tags
  | v :: vs, tags =>
      if v ∉ ([some ".", some "SYN", none] : List (Option String)) then
        flagAdd tags "has_nonsynonymous_variants"
      else run_variant_loop_inner vs tags

/-- The outer loop of `Cluster._run` over `self.assembly_variants`
values: scan each variant list, stopping as soon as the
`has_nonsynonymous_variants` tag is present. -/
def run_variant_loop : List (List (Option String)) → List String → List String
  | [], tags => tags
  | l :: rest, tags =>
      let tags := run_variant_loop_inner l tags
      if flagHas tags "has_nonsynonymous_variants" then tags
      else run_variant_loop rest tags

/-- The tail of `Cluster._run` common to all non-raising paths: print the
report-lines message, build the report rows, and run `_clean`. -/
def run_finish (cfg : ClusterConfig) (st : ClusterState) : ClusterState :=
  let st1 := { st with log := st.log ++ ["Making report lines"] }
  let st2 := { st1 with report_lines := some (report_lines st1) }
  cluster_clean cfg.clean cfg.root_dir st2

/-- The branch of `Cluster._run` taken when a reference was chosen
(lines 317 to 349): compute the wanted read count, subsample the reads,
look up the sequence type (a failed `assert` raises an
`AssertionError`), run the assembler, record `assembled_ok`, and clean
the subsampled read files and the assembly directory.  The `assert` of
`_number_of_reads_for_assembly` and the `assert` on the sequence type
raise `AssertionError`; `_make_reads_for_assembly` and the assembler
raise the `Error` class. -/
def run_chosen_phase (cfg : ClusterConfig) (env : RunEnv) (st : ClusterState)
    (ref : Sequence) : Except (PyExc × ClusterState) (ClusterState × AssemblyRes) :=
  match number_of_reads_for_assembly [ref] cfg.reads_insert cfg.total_reads_bases
      cfg.total_reads cfg.assembly_coverage with
  | .error e => .error (.assertionError e, st)
  | .ok wanted_reads =>
  match make_reads_for_assembly wanted_reads cfg.total_reads cfg.all_reads1 cfg.all_reads2
      cfg.random_seed with
  | .error e => .error (.clusterError e, st)
  | .ok (_, _, made_reads) =>
    let st1 := { st with
      files := st.files ++ [cfg.root_dir ++ "/reads_for_assembly_1.fq",
                            cfg.root_dir ++ "/reads_for_assembly_2.fq"]
      log := st.log ++ ["Using " ++ toString made_reads ++ " from a total of "
                          ++ toString cfg.total_reads ++ " for assembly.",
                        "Assembling reads:"] }
    match env.sequence_type ref.id with
    | none => .error (.assertionError "assert self.ref_sequence_type is not None failed", st1)
    | some t =>
      let st2 := { st1 with ref_sequence_type := some t }
      match env.assembly_run with
      | .error e => .error (.clusterError e, st2)
      | .ok ares =>
        let st3 := { st2 with assembled_ok := some ares.assembled_ok }
        let st4 := clean_file_st cfg.clean st3 (cfg.root_dir ++ "/reads_for_assembly_1.fq")
        let st5 := clean_file_st cfg.clean st4 (cfg.root_dir ++ "/reads_for_assembly_2.fq")
        let st6 :=
          if cfg.clean then
            { st5 with log := st5.log ++ ["Deleting Assembly directory "
                                            ++ cfg.root_dir ++ "/Assembly"]
                       files := st5.files.erase (cfg.root_dir ++ "/Assembly") }
          else st5
        .ok (st6, ares)

/-- The `if self.assembled_ok` branch of `Cluster._run` (lines 351 to
427): map reads back, add the strand and scaffold-graph tags, run the
comparator and merge its flag update, extract variants and run the
consequence loop, call variants with samtools, and add the
collapsed-repeat tag.  The second component is the list of snapshots of
the status flag taken after each statement of this phase that can modify
it. -/
def run_assembled_phase (env : RunEnv) (st : ClusterState) (ares : AssemblyRes) :
    Except (PyExc × ClusterState) ClusterState × List (List String) :=
  let st0 := { st with log := st.log ++ ["Assembly was successful", "Mapping reads to assembly:"] }
  match env.bowtie2_map with
  | .error e => (.error (.clusterError e, st0), [])
  | .ok _ =>
    let st1 := if ares.has_contigs_on_both_strands then addFlagSt st0 "hit_both_strands" else st0
    let st2 := { st1 with log := st1.log ++ ["Making and checking scaffold graph"] }
    let st3 := if ares.scaff_graph_ok = false then addFlagSt st2 "scaffold_graph_bad" else st2
    let st4 := { st3 with log := st3.log ++ ["Comparing assembly against reference sequence"] }
    match env.compare_run with
    | .error e => (.error (.clusterError e, st4), [st1.status_flag, st3.status_flag])
    | .ok compare_added =>
      let st5 := { st4 with status_flag := flagAddList st4.status_flag compare_added }
      let st6 := { st5 with assembly_variants := env.get_variants
                            status_flag := run_variant_loop env.get_variants st5.status_flag }
      let st7 := { st6 with log := st6.log ++ ["Calling variants with samtools:"] }
      match env.samtools_run with
      | .error e =>
          (.error (.clusterError e, st7),
           [st1.status_flag, st3.status_flag, st5.status_flag, st6.status_flag])
      | .ok _ =>
        let st8 :=
          if env.variants_in_coords then addFlagSt st7 "variants_suggest_collapsed_repeat"
          else st7
        (.ok st8,
         [st1.status_flag, st3.status_flag, st5.status_flag, st6.status_flag,
          st8.status_flag])

/-- The part of `Cluster._run` after the chooser result is recorded and
the candidate fasta cleaned (lines 314 to 430): either record the
choose-failure (which then takes the `assembly_fail` branch of the
`assembled_ok` test) or run the chosen-reference pipeline and branch on
`assembled_ok`; in every non-raising case finish with report rows and
cleanup.  The second component lists the status-flag snapshots of this
part, in execution order. -/
def run_after_choose (cfg : ClusterConfig) (env : RunEnv) (st3 : ClusterState) :
    Option Sequence → Except (PyExc × ClusterState) ClusterState × List (List String)
  | none =>
      let st4 := addFlagSt st3 "ref_seq_choose_fail"
      let st5 := { st4 with assembled_ok := some false }
      let st6 := { st5 with log := st5.log ++ ["Assembly failed"] }
      let st7 := addFlagSt st6 "assembly_fail"
      (.ok (run_finish cfg st7), [st4.status_flag, st7.status_flag])
  | some ref =>
      match run_chosen_phase cfg env st3 ref with
      | .error (e, stE) => (.error (e, stE), [])
      | .ok (stA, ares) =>
          if ares.assembled_ok then
            match run_assembled_phase env stA ares with
            | (.error (e, stE), tr) => (.error (e, stE), tr)
            | (.ok stB, tr) => (.ok (run_finish cfg stB), tr)
          else
            let stB := { stA with log := stA.log ++ ["Assembly failed"] }
            let stC := addFlagSt stB "assembly_fail"
            (.ok (run_finish cfg stC), [stC.status_flag])

/-- `Cluster._run`: print the start banner, choose the best reference
(its result given by the environment), record it and clean the candidate
fasta, then continue with `run_after_choose`.  `.error` carries the
message and the object state at the raise.  The second component is the
list of snapshots of the status flag taken after each statement on the
executed path that can modify it, starting from the initial value. -/
def cluster_run_inner (cfg : ClusterConfig) (env : RunEnv) (st : ClusterState) :
    Except (PyExc × ClusterState) ClusterState × List (List String) :=
  let st0 := { st with log := st.log ++ [mkStartBanner cfg.name,
                                         "Choosing best reference sequence:"] }
  let t0 := st0.status_flag
  match env.best_seq with
  | .error e => (.error (.clusterError e, st0), [t0])
  | .ok chosen =>
    let st1 := { st0 with ref_sequence := chosen }
    let st2 := clean_file_st cfg.clean st1 (cfg.root_dir ++ "/references.fa")
    let st3 := clean_file_st cfg.clean st2 (cfg.root_dir ++ "/references.fa.fai")
    let r := run_after_choose cfg env st3 chosen
    (r.1, t0 :: r.2)

/-- `Cluster.run`: open the log handle, run `_run`; `except Error` only
catches the ariba `Error` class: on such an error, log it, close the log
handle, and raise a new `Error` naming the cluster.  An
`AssertionError` is not caught: it propagates unchanged, with the log
handle left open and no logging.  On success, log the end banner and
close the log handle. -/
def cluster_run (cfg : ClusterConfig) (env : RunEnv) (st : ClusterState) :
    Except (PyExc × ClusterState) ClusterState × List (List String) :=
  let stOpen := { st with log_open := true }
  match cluster_run_inner cfg env stOpen with
  | (.error (.clusterError e, stE), tr) =>
    let stF := { stE with log := stE.log ++ ["Error running cluster! Error was:\n" ++ e]
                          log_open := false }
    (.error (.clusterError ("Error running cluster " ++ cfg.name ++ "!"), stF), tr)
  | (.error (.assertionError e, stE), tr) =>
    (.error (.assertionError e, stE), tr)
  | (.ok stE, tr) =>
    let stF := { stE with log := stE.log ++ ["Finished", mkEndBanner cfg.name]
                          log_open := false }
    (.ok stF, tr)

/-- Concrete configuration used to exercise the choose-fail path. -/
def cfgW1 : ClusterConfig :=
  { name := "clu1", root_dir := "wd", total_reads := 4, total_reads_bases := 100,
    reads_insert := 500, assembly_coverage := 50, random_seed := 42, clean := true,
    all_reads1 := [], all_reads2 := [] }

/-- Concrete environment in which the best-reference chooser returns
null. -/
def envW1 : RunEnv :=
  { best_seq := .ok none, sequence_type := fun _ => none,
    assembly_run := .ok ⟨false, false, false⟩, bowtie2_map := .ok (),
    compare_run := .ok [], get_variants := [], samtools_run := .ok (),
    variants_in_coords := false }

/-- Concrete configuration used to exercise the error-propagation path. -/
def cfgW7 : ClusterConfig :=
  { name := "clu7", root_dir := "wd", total_reads := 4, total_reads_bases := 100,
    reads_insert := 500, assembly_coverage := 50, random_seed := 42, clean := true,
    all_reads1 := [], all_reads2 := [] }

/-- Concrete environment in which the best-reference chooser raises. -/
def envW7 : RunEnv :=
  { best_seq := .error "boom", sequence_type := fun _ => none,
    assembly_run := .ok ⟨false, false, false⟩, bowtie2_map := .ok (),
    compare_run := .ok [], get_variants := [], samtools_run := .ok (),
    variants_in_coords := false }

/-- The cluster state at the point the chooser raises in the concrete
error scenario. -/
def stEW7 : ClusterState :=
  { cluster_init [] with
      log := [mkStartBanner "clu7", "Choosing best reference sequence:"]
      log_open := true }

/-- Concrete configuration used to exercise the uncaught-assert path. -/
def cfgW7b : ClusterConfig :=
  { name := "clu7b", root_dir := "wd", total_reads := 4, total_reads_bases := 100,
    reads_insert := 500, assembly_coverage := 50, random_seed := 42, clean := false,
    all_reads1 := [], all_reads2 := [] }

/-- Concrete environment in which a reference is chosen but the sequence
type lookup returns null, so the `assert self.ref_sequence_type is not
None` raises an `AssertionError`. -/
def envW7b : RunEnv :=
  { best_seq := .ok (some ⟨"r1", "ACGT"⟩), sequence_type := fun _ => none,
    assembly_run := .ok ⟨false, false, false⟩, bowtie2_map := .ok (),
    compare_run := .ok [], get_variants := [], samtools_run := .ok (),
    variants_in_coords := false }

/-- The cluster state at the point the sequence-type `assert` fails in
the concrete uncaught-assert scenario: note the log handle is still
open. -/
def stEW7b : ClusterState :=
  { status_flag := []
    assembled_ok := none
    ref_sequence := some ⟨"r1", "ACGT"⟩
    ref_sequence_type := none
    assembly_variants := []
    report_lines := none
    files := ["wd/reads_for_assembly_1.fq", "wd/reads_for_assembly_2.fq"]
    log := [mkStartBanner "clu7b", "Choosing best reference sequence:",
            "Using 4 from a total of 4 for assembly.", "Assembling reads:"]
    log_open := true }

/-! ## Helper lemmas about the flag bitset -/

theorem flagAdd_subset (tags : List String) (t : String) : tags ⊆ flagAdd tags t := by
  unfold flagAdd
  split
  · exact fun a h => h
  · exact List.subset_append_left _ _

theorem mem_flagAdd_self (tags : List String) (t : String) : t ∈ flagAdd tags t := by
  unfold flagAdd
  split
  · assumption
  · simp

theorem mem_flagAdd_of_mem {s : String} {tags : List String} (t : String)
    (h : s ∈ tags) : s ∈ flagAdd tags t :=
  flagAdd_subset tags t h

theorem flagAddList_subset (tags new : List String) : tags ⊆ flagAddList tags new := by
  induction new generalizing tags with
  | nil => exact fun a h => h
  | cons a l ih =>
      simp only [flagAddList, List.foldl_cons]
      exact (flagAdd_subset tags a).trans (ih (flagAdd tags a))

theorem run_variant_loop_inner_subset (l : List (Option String)) (tags : List String) :
    tags ⊆ run_variant_loop_inner l tags := by
  induction l with
  | nil => exact fun a h => h
  | cons v vs ih =>
      unfold run_variant_loop_inner
      split
      · exact flagAdd_subset tags _
      · exact ih

theorem run_variant_loop_subset (vs : List (List (Option String))) (tags : List String) :
    tags ⊆ run_variant_loop vs tags := by
  induction vs generalizing tags with
  | nil => exact fun a h => h
  | cons l rest ih =>
      simp only [run_variant_loop]
      split
      · exact run_variant_loop_inner_subset l tags
      · exact (run_variant_loop_inner_subset l tags).trans (ih _)

theorem run_variant_loop_inner_id (l : List (Option String)) (tags : List String)
    (h : ∀ v ∈ l, v ∈ ([some ".", some "SYN", none] : List (Option String))) :
    run_variant_loop_inner l tags = tags := by
  induction l with
  | nil => rfl
  | cons v vs ih =>
      unfold run_variant_loop_inner
      rw [if_neg (not_not_intro (h v (List.mem_cons_self v vs)))]
      exact ih fun w hw => h w (List.mem_cons_of_mem _ hw)

theorem run_variant_loop_inner_mem (l : List (Option String)) (tags : List String)
    {v : Option String} (hv : v ∈ l)
    (hbad : v ∉ ([some ".", some "SYN", none] : List (Option String))) :
    "has_nonsynonymous_variants" ∈ run_variant_loop_inner l tags := by
  induction l with
  | nil => cases hv
  | cons w ws ih =>
      unfold run_variant_loop_inner
      by_cases hw : w ∉ ([some ".", some "SYN", none] : List (Option String))
      · rw [if_pos hw]
        exact mem_flagAdd_self tags _
      · rw [if_neg hw]
        rcases List.mem_cons.mp hv with h | h
        · exact absurd (h ▸ hbad) hw
        · exact ih h

/-! ## Claim theorems about the pure helpers -/

/-- C6: for every cluster run reaching the variant-extraction stage, if
any extracted variant has a consequence class that is not `.`, not `SYN`
and not null, the variant loop of `Cluster._run` leaves the
`has_nonsynonymous_variants` status tag set; if no such variant exists,
the loop does not set it (it returns the status flag unchanged). -/
theorem claim_C6_nonsyn_variant_flag (vs : List (List (Option String))) (tags : List String) :
    ((∃ l ∈ vs, ∃ v ∈ l, v ∉ ([some ".", some "SYN", none] : List (Option String))) →
        "has_nonsynonymous_variants" ∈ run_variant_loop vs tags)
    ∧ ((∀ l ∈ vs, ∀ v ∈ l, v ∈ ([some ".", some "SYN", none] : List (Option String))) →
        run_variant_loop vs tags = tags) := by
  constructor
  · intro hex
    induction vs generalizing tags with
    | nil => obtain ⟨l, hl, -⟩ := hex; cases hl
    | cons l rest ih =>
        obtain ⟨l', hl', v, hv, hbad⟩ := hex
        simp only [run_variant_loop]
        rcases List.mem_cons.mp hl' with h | h
        · subst h
          have hmem : "has_nonsynonymous_variants" ∈ run_variant_loop_inner l' tags :=
            run_variant_loop_inner_mem l' tags hv hbad
          split
          · exact hmem
          · exact run_variant_loop_subset rest _ hmem
        · split
          · next hhas =>
              simp only [flagHas] at hhas
              exact List.mem_of_elem_eq_true hhas
          · exact ih _ ⟨l', h, v, hv, hbad⟩
  · intro hall
    induction vs generalizing tags with
    | nil => rfl
    | cons l rest ih =>
        simp only [run_variant_loop]
        rw [run_variant_loop_inner_id l tags (hall l (List.mem_cons_self l rest))]
        split
        · rfl
        · exact ih tags fun l' hl' => hall l' (List.mem_cons_of_mem _ hl')

/-- Witness for C6 at concrete inputs: a `NONSYN` consequence sets the
tag; a list with only `.`, `SYN` and null consequences leaves the flag
unchanged. -/
theorem claim_C6_witness :
    "has_nonsynonymous_variants" ∈ run_variant_loop [[some "NONSYN"]] []
    ∧ run_variant_loop [[some ".", some "SYN", none]] [] = [] :=
  ⟨(claim_C6_nonsyn_variant_flag [[some "NONSYN"]] []).1 (by decide),
   (claim_C6_nonsyn_variant_flag [[some ".", some "SYN", none]] []).2 (by decide)⟩

/-- C4: when the wanted read count is at least the total read count,
`_make_reads_for_assembly` is a no-op: the output files are the input
files (link semantics) and the returned count is the total read count. -/
theorem claim_C4_no_subsample (wanted : ℤ) (total : Nat)
    (in1 in2 : List Sequence) (seed : Nat) (h : (total : ℤ) ≤ wanted) :
    make_reads_for_assembly wanted total in1 in2 seed = .ok (in1, in2, total) := by
  unfold make_reads_for_assembly
  rw [if_neg (not_lt.mpr h)]

/-- Witness for C4: 10 wanted reads from a total of 4. -/
theorem claim_C4_witness :
    make_reads_for_assembly 10 4 [⟨"a", "ACGT"⟩] [⟨"b", "TTTT"⟩] 42
      = .ok ([⟨"a", "ACGT"⟩], [⟨"b", "TTTT"⟩], 4) :=
  claim_C4_no_subsample 10 4 [⟨"a", "ACGT"⟩] [⟨"b", "TTTT"⟩] 42 (by decide)

theorem subsample_reads_spec (in1 : List Sequence) :
    ∀ (draws : Nat → Nat) (pw : ℚ) (in2 : List Sequence), in1.length = in2.length →
    ∃ out1 out2 c, subsample_reads draws pw in1 in2 = .ok (out1, out2, c)
      ∧ out1.length = out2.length
      ∧ c = out1.length + out2.length
      ∧ (out1.zip out2).Sublist (in1.zip in2) := by
  induction in1 with
  | nil =>
      intro draws pw in2 hlen
      have : in2 = [] := List.length_eq_zero.mp hlen.symm
      subst this
      exact ⟨[], [], 0, rfl, rfl, rfl, List.Sublist.refl _⟩
  | cons r1 rest1 ih =>
      intro draws pw in2 hlen
      cases in2 with
      | nil => simp at hlen
      | cons r2 rest2 =>
          obtain ⟨o1, o2, c, heq, hlen12, hc, hsub⟩ :=
            ih (fun n => draws (n + 1)) pw rest2 (by simpa using hlen)
          unfold subsample_reads
          split
          · refine ⟨r1 :: o1, r2 :: o2, c + 2, ?_, ?_, ?_, ?_⟩
            · rw [heq]
            · simpa using hlen12
            · simp [hc]; omega
            · simpa [List.zip_cons_cons] using hsub.cons₂ (r1, r2)
          · refine ⟨o1, o2, c, ?_, hlen12, hc, ?_⟩
            · rw [heq]
            · simpa [List.zip_cons_cons] using hsub.cons (r1, r2)

/-- C5: when `_make_reads_for_assembly` subsamples (wanted below total)
over well-paired inputs, the two output files have equal record counts, a
pair is kept or dropped together (the output pairing is a sublist of the
input pairing), and the returned count is the total number of records
written across both files. -/
theorem claim_C5_paired_subsample (wanted : ℤ) (total : Nat)
    (in1 in2 : List Sequence) (seed : Nat)
    (hlt : wanted < (total : ℤ)) (hlen : in1.length = in2.length) :
    ∃ out1 out2 c, make_reads_for_assembly wanted total in1 in2 seed = .ok (out1, out2, c)
      ∧ out1.length = out2.length
      ∧ c = out1.length + out2.length
      ∧ (out1.zip out2).Sublist (in1.zip in2) := by
  unfold make_reads_for_assembly
  rw [if_pos hlt]
  exact subsample_reads_spec in1 (python_randints seed) _ in2 hlen

/-- Witness for C5: subsampling 1 of 2 read pairs with seed 0. -/
theorem claim_C5_witness :
    ∃ out1 out2 c,
      make_reads_for_assembly 1 2 [⟨"a", "AC"⟩, ⟨"b", "GG"⟩] [⟨"c", "GT"⟩, ⟨"d", "CC"⟩] 0
        = .ok (out1, out2, c)
      ∧ out1.length = out2.length
      ∧ c = out1.length + out2.length
      ∧ (out1.zip out2).Sublist
          (([⟨"a", "AC"⟩, ⟨"b", "GG"⟩] : List Sequence).zip [⟨"c", "GT"⟩, ⟨"d", "CC"⟩]) :=
  claim_C5_paired_subsample 1 2 [⟨"a", "AC"⟩, ⟨"b", "GG"⟩] [⟨"c", "GT"⟩, ⟨"d", "CC"⟩] 0
    (by decide) (by decide)

/-- C8: read subsampling is deterministic in the configured seed: two
calls of `_make_reads_for_assembly` with identical inputs and equal seeds
return identical output files and counts. -/
theorem claim_C8_deterministic_seed (wanted : ℤ) (total : Nat)
    (in1 in2 : List Sequence) (s1 s2 : Nat) (h : s1 = s2) :
    make_reads_for_assembly wanted total in1 in2 s1
      = make_reads_for_assembly wanted total in1 in2 s2 := by
  rw [h]

/-- Witness for C8 at seed 42 on a subsampling call. -/
theorem claim_C8_witness :
    make_reads_for_assembly 1 2 [⟨"a", "AC"⟩, ⟨"b", "GG"⟩] [⟨"c", "GT"⟩, ⟨"d", "CC"⟩] 42
      = make_reads_for_assembly 1 2 [⟨"a", "AC"⟩, ⟨"b", "GG"⟩] [⟨"c", "GT"⟩, ⟨"d", "CC"⟩] 42 :=
  claim_C8_deterministic_seed 1 2 [⟨"a", "AC"⟩, ⟨"b", "GG"⟩] [⟨"c", "GT"⟩, ⟨"d", "CC"⟩] 42 42 rfl

theorem wantedReadCount_mono {L1 L2 ins tb tr : Nat} {c1 c2 : ℚ}
    (hL : L1 ≤ L2) (hc1 : 0 ≤ c1) (hc : c1 ≤ c2) (htb : 0 < tb) (htr : 0 < tr) :
    wantedReadCount L1 ins tb tr c1 ≤ wantedReadCount L2 ins tb tr c2 := by
  simp only [wantedReadCount]
  have hmean : (0 : ℚ) < (tb : ℚ) / (tr : ℚ) :=
    div_pos (by exact_mod_cast htb) (by exact_mod_cast htr)
  have hnum : c1 * ((L1 : ℚ) + 2 * (ins : ℚ)) ≤ c2 * ((L2 : ℚ) + 2 * (ins : ℚ)) := by
    apply mul_le_mul hc _ (by positivity) (le_trans hc1 hc)
    have : (L1 : ℚ) ≤ (L2 : ℚ) := by exact_mod_cast hL
    linarith
  have harg := (div_le_div_iff_of_pos_right hmean).mpr hnum
  have hceil := Int.ceil_le_ceil harg
  omega

/-- C3: with insert size, total bases and total reads fixed and positive,
the wanted read count computed by `_number_of_reads_for_assembly` is
monotone non-decreasing jointly in the coverage target and in the total
reference length. -/
theorem claim_C3_reads_monotone (fa1 fa2 : List Sequence) (ins tb tr : Nat) (c1 c2 : ℚ)
    (h1 : 0 < seqLenSum fa1) (h12 : seqLenSum fa1 ≤ seqLenSum fa2)
    (hc1 : 0 < c1) (hc : c1 ≤ c2) (_hins : 0 < ins) (htb : 0 < tb) (htr : 0 < tr) :
    ∃ n1 n2, number_of_reads_for_assembly fa1 ins tb tr c1 = .ok n1
      ∧ number_of_reads_for_assembly fa2 ins tb tr c2 = .ok n2
      ∧ n1 ≤ n2 := by
  refine ⟨wantedReadCount (seqLenSum fa1) ins tb tr c1,
          wantedReadCount (seqLenSum fa2) ins tb tr c2, ?_, ?_, ?_⟩
  · simp only [number_of_reads_for_assembly]
    rw [if_neg (by omega)]
  · simp only [number_of_reads_for_assembly]
    rw [if_neg (by omega)]
  · exact wantedReadCount_mono h12 (le_of_lt hc1) hc htb htr

/-- Witness for C3: a 4-base and an 8-base reference at coverages 50 and
60. -/
theorem claim_C3_witness :
    ∃ n1 n2, number_of_reads_for_assembly [⟨"ref1", "ACGT"⟩] 500 100 10 50 = .ok n1
      ∧ number_of_reads_for_assembly [⟨"ref2", "ACGTACGT"⟩] 500 100 10 60 = .ok n2
      ∧ n1 ≤ n2 :=
  claim_C3_reads_monotone [⟨"ref1", "ACGT"⟩] [⟨"ref2", "ACGTACGT"⟩] 500 100 10 50 60
    (by decide) (by decide) (by norm_num) (by norm_num) (by decide) (by decide) (by decide)

theorem wantedReadCount_even_ge_two {L ins tb tr : Nat} {c : ℚ}
    (hL : 0 < L) (htb : 0 < tb) (htr : 0 < tr) (hc : 0 < c) :
    wantedReadCount L ins tb tr c % 2 = 0 ∧ 2 ≤ wantedReadCount L ins tb tr c := by
  simp only [wantedReadCount]
  have hLq : (0 : ℚ) < (L : ℚ) := by exact_mod_cast hL
  have hpos : (0 : ℚ) < c * ((L : ℚ) + 2 * (ins : ℚ)) / ((tb : ℚ) / (tr : ℚ)) := by
    apply div_pos
    · exact mul_pos hc (by positivity)
    · exact div_pos (by exact_mod_cast htb) (by exact_mod_cast htr)
  have h1 : 0 < ⌈c * ((L : ℚ) + 2 * (ins : ℚ)) / ((tb : ℚ) / (tr : ℚ))⌉ :=
    Int.ceil_pos.mpr hpos
  omega

/-- C10: for positive reference length, insert size, totals and coverage,
`_number_of_reads_for_assembly` returns an even integer of at least 2, so
the read budget admits whole read pairs. -/
theorem claim_C10_even_read_budget (fa : List Sequence) (ins tb tr : Nat) (c : ℚ)
    (hL : 0 < seqLenSum fa) (_hins : 0 < ins) (htb : 0 < tb) (htr : 0 < tr) (hc : 0 < c) :
    ∃ n, number_of_reads_for_assembly fa ins tb tr c = .ok n
      ∧ n % 2 = 0 ∧ 2 ≤ n := by
  refine ⟨wantedReadCount (seqLenSum fa) ins tb tr c, ?_, ?_⟩
  · simp only [number_of_reads_for_assembly]
    rw [if_neg (by omega)]
  · exact wantedReadCount_even_ge_two hL htb htr hc

/-- Witness for C10: a 4-base reference, insert 500, 100 bases in 10
reads, coverage 50. -/
theorem claim_C10_witness :
    ∃ n, number_of_reads_for_assembly [⟨"ref1", "ACGT"⟩] 500 100 10 50 = .ok n
      ∧ n % 2 = 0 ∧ 2 ≤ n :=
  claim_C10_even_read_budget [⟨"ref1", "ACGT"⟩] 500 100 10 50
    (by decide) (by decide) (by decide) (by decide) (by norm_num)

/-! ## Field-preservation lemmas for the cleanup stage -/

@[simp]
theorem clean_file_st_flag (b : Bool) (st : ClusterState) (f : String) :
    (clean_file_st b st f).status_flag = st.status_flag := by
  unfold clean_file_st; split <;> rfl

@[simp]
theorem clean_file_st_assembled (b : Bool) (st : ClusterState) (f : String) :
    (clean_file_st b st f).assembled_ok = st.assembled_ok := by
  unfold clean_file_st; split <;> rfl

@[simp]
theorem clean_file_st_report (b : Bool) (st : ClusterState) (f : String) :
    (clean_file_st b st f).report_lines = st.report_lines := by
  unfold clean_file_st; split <;> rfl

theorem clean_file_st_log (b : Bool) (st : ClusterState) (f : String) :
    ∃ r, (clean_file_st b st f).log = st.log ++ r := by
  unfold clean_file_st; split
  · exact ⟨_, rfl⟩
  · exact ⟨[], (List.append_nil _).symm⟩

theorem clean_delete_loop_cons (b : Bool) (st : ClusterState) (a : String) (l : List String) :
    clean_delete_loop b st (a :: l)
      = clean_delete_loop b (if a ∈ st.files then clean_file_st b st a else st) l := by
  simp only [clean_delete_loop, List.foldl_cons]

theorem clean_delete_loop_fields (b : Bool) (l : List String) :
    ∀ st : ClusterState,
      (clean_delete_loop b st l).status_flag = st.status_flag
      ∧ (clean_delete_loop b st l).assembled_ok = st.assembled_ok
      ∧ (clean_delete_loop b st l).report_lines = st.report_lines := by
  induction l with
  | nil => exact fun st => ⟨rfl, rfl, rfl⟩
  | cons a l ih =>
      intro st
      rw [clean_delete_loop_cons]
      obtain ⟨h1, h2, h3⟩ := ih (if a ∈ st.files then clean_file_st b st a else st)
      refine ⟨h1.trans ?_, h2.trans ?_, h3.trans ?_⟩ <;> (split <;> simp)

@[simp]
theorem cluster_clean_flag (b : Bool) (root : String) (st : ClusterState) :
    (cluster_clean b root st).status_flag = st.status_flag := by
  unfold cluster_clean; split
  · rfl
  · exact (clean_delete_loop_fields b _ st).1

@[simp]
theorem cluster_clean_assembled (b : Bool) (root : String) (st : ClusterState) :
    (cluster_clean b root st).assembled_ok = st.assembled_ok := by
  unfold cluster_clean; split
  · rfl
  · exact (clean_delete_loop_fields b _ st).2.1

@[simp]
theorem cluster_clean_report (b : Bool) (root : String) (st : ClusterState) :
    (cluster_clean b root st).report_lines = st.report_lines := by
  unfold cluster_clean; split
  · rfl
  · exact (clean_delete_loop_fields b _ st).2.2

/-- `run_finish` only appends a log line, stores the report rows and
cleans: the status flag and assembly outcome are untouched and the
stored rows are those of `report_lines`. -/
theorem run_finish_fields (cfg : ClusterConfig) (st : ClusterState) :
    (run_finish cfg st).status_flag = st.status_flag
    ∧ (run_finish cfg st).assembled_ok = st.assembled_ok
    ∧ (run_finish cfg st).report_lines
        = some (report_lines { st with log := st.log ++ ["Making report lines"] }) := by
  unfold run_finish
  exact ⟨by simp, by simp, by simp⟩

/-! ## Claim theorems about the orchestrator -/

/-- C9: when the no-clean override is active (clean flag false), the
`_clean` stage deletes no files: the state is unchanged apart from the
log message recording the skip, and `_clean_file` does nothing at all. -/
theorem claim_C9_noclean_frame (root : String) (st : ClusterState) (filename : String) :
    cluster_clean false root st
        = { st with log := st.log ++ ["   ... not deleting anything because --noclean used"] }
    ∧ clean_file_st false st filename = st := by
  constructor
  · unfold cluster_clean
    rw [if_pos rfl]
  · unfold clean_file_st
    rw [if_neg Bool.false_ne_true]

/-- C1: a cluster run in which the best-reference chooser returns null
terminates without an exception, with the `ref_seq_choose_fail` tag set,
`assembled_ok` false, and exactly one failure report row. -/
theorem claim_C1_choose_fail (cfg : ClusterConfig) (env : RunEnv) (files : List String)
    (h : env.best_seq = .ok none) :
    ∃ stF, (cluster_run_inner cfg env (cluster_init files)).1 = .ok stF
      ∧ "ref_seq_choose_fail" ∈ stF.status_flag
      ∧ stF.assembled_ok = some false
      ∧ ∃ rows, stF.report_lines = some rows ∧ rows.length = 1 := by
  simp only [cluster_run_inner, run_after_choose, h]
  refine ⟨_, rfl, ?_, ?_, ?_⟩
  · rw [(run_finish_fields _ _).1]
    simp only [addFlagSt, clean_file_st_flag]
    exact mem_flagAdd_of_mem _ (mem_flagAdd_self _ _)
  · rw [(run_finish_fields _ _).2.1]; rfl
  · rw [(run_finish_fields _ _).2.2]
    refine ⟨_, rfl, ?_⟩
    simp [report_lines, addFlagSt]

/-- Witness for C1: a concrete run whose chooser returns null ends with
the failure tags, a false `assembled_ok` and one report row. -/
theorem claim_C1_witness :
    ∃ stF, (cluster_run_inner cfgW1 envW1 (cluster_init [])).1 = .ok stF
      ∧ "ref_seq_choose_fail" ∈ stF.status_flag
      ∧ stF.assembled_ok = some false
      ∧ ∃ rows, stF.report_lines = some rows ∧ rows.length = 1 :=
  claim_C1_choose_fail cfgW1 envW1 [] rfl

/-! ## Monotonicity of the status flag along a run -/

theorem subset_ite_addFlag (c : Prop) [Decidable c] {s t : ClusterState}
    (hf : s.status_flag = t.status_flag) (tag : String) :
    s.status_flag ⊆ (if c then addFlagSt t tag else t).status_flag := by
  rw [hf]
  split
  · exact flagAdd_subset _ _
  · exact fun a h => h

theorem run_chosen_phase_ok_flag {cfg : ClusterConfig} {env : RunEnv} {st : ClusterState}
    {ref : Sequence} {stA : ClusterState} {ares : AssemblyRes}
    (h : run_chosen_phase cfg env st ref = .ok (stA, ares)) :
    stA.status_flag = st.status_flag := by
  unfold run_chosen_phase at h
  split at h
  · exact Except.noConfusion h
  · split at h
    · exact Except.noConfusion h
    · split at h
      · exact Except.noConfusion h
      · split at h
        · exact Except.noConfusion h
        · simp only [Except.ok.injEq, Prod.mk.injEq] at h
          obtain ⟨h1, -⟩ := h
          subst h1
          split <;> simp

theorem subset_of_eq_list {a b : List String} (h : a = b) : a ⊆ b := by
  rw [h]
  exact fun x hx => hx

theorem run_assembled_phase_chain (env : RunEnv) (st : ClusterState) (ares : AssemblyRes) :
    List.Chain' (fun a b => a ⊆ b) (st.status_flag :: (run_assembled_phase env st ares).2) := by
  unfold run_assembled_phase
  cases hbm : env.bowtie2_map with
  | error e => exact List.chain'_singleton _
  | ok u =>
      cases hcr : env.compare_run with
      | error e =>
          refine List.chain'_cons.mpr ⟨subset_ite_addFlag _ (by rfl) _, ?_⟩
          refine List.chain'_cons.mpr ⟨subset_ite_addFlag _ (by rfl) _, ?_⟩
          exact List.chain'_singleton _
      | ok compare_added =>
          cases hsr : env.samtools_run with
          | error e =>
              refine List.chain'_cons.mpr ⟨subset_ite_addFlag _ (by rfl) _, ?_⟩
              refine List.chain'_cons.mpr ⟨subset_ite_addFlag _ (by rfl) _, ?_⟩
              refine List.chain'_cons.mpr ⟨flagAddList_subset _ _, ?_⟩
              refine List.chain'_cons.mpr ⟨run_variant_loop_subset _ _, ?_⟩
              exact List.chain'_singleton _
          | ok u2 =>
              refine List.chain'_cons.mpr ⟨subset_ite_addFlag _ (by rfl) _, ?_⟩
              refine List.chain'_cons.mpr ⟨subset_ite_addFlag _ (by rfl) _, ?_⟩
              refine List.chain'_cons.mpr ⟨flagAddList_subset _ _, ?_⟩
              refine List.chain'_cons.mpr ⟨run_variant_loop_subset _ _, ?_⟩
              refine List.chain'_cons.mpr ⟨subset_ite_addFlag _ (by rfl) _, ?_⟩
              exact List.chain'_singleton _

theorem run_after_choose_chain (cfg : ClusterConfig) (env : RunEnv) {st3 : ClusterState}
    {l : List String} (hfl : st3.status_flag = l) (chosen : Option Sequence) :
    List.Chain' (fun a b => a ⊆ b) (l :: (run_after_choose cfg env st3 chosen).2) := by
  subst hfl
  cases chosen with
  | none =>
      simp only [run_after_choose]
      refine List.chain'_cons.mpr ⟨flagAdd_subset _ _, ?_⟩
      refine List.chain'_cons.mpr ⟨flagAdd_subset _ _, ?_⟩
      exact List.chain'_singleton _
  | some ref =>
      simp only [run_after_choose]
      cases hcp : run_chosen_phase cfg env st3 ref with
      | error p =>
          obtain ⟨e, stE⟩ := p
          dsimp only
          exact List.chain'_singleton _
      | ok p =>
          obtain ⟨stA, ares⟩ := p
          dsimp only
          have hflag := run_chosen_phase_ok_flag hcp
          cases hao : ares.assembled_ok with
          | true =>
              have hchain := run_assembled_phase_chain env stA ares
              rw [hflag] at hchain
              cases hph : run_assembled_phase env stA ares with
              | mk res tr =>
                  rw [hph] at hchain
                  cases res with
                  | error p2 =>
                      obtain ⟨e2, stE2⟩ := p2
                      exact hchain
                  | ok stB => exact hchain
          | false =>
              refine List.chain'_cons.mpr
                ⟨(subset_of_eq_list hflag.symm).trans (flagAdd_subset _ _), ?_⟩
              exact List.chain'_singleton _

theorem cluster_run_inner_chain (cfg : ClusterConfig) (env : RunEnv) (st : ClusterState) :
    List.Chain' (fun a b => a ⊆ b) ((cluster_run_inner cfg env st).2) := by
  unfold cluster_run_inner
  cases hbs : env.best_seq with
  | error e => exact List.chain'_singleton _
  | ok chosen => exact run_after_choose_chain cfg env (by simp) chosen

/-- C2: throughout one cluster run, the status-flag bitset is mutated
only additively: the trace of flag values recorded after every
flag-touching statement of `_run` is pairwise ordered by inclusion, so a
tag once set is still set at every later point of the run. -/
theorem claim_C2_flags_additive (cfg : ClusterConfig) (env : RunEnv) (st : ClusterState) :
    ((cluster_run_inner cfg env st).2).Pairwise (fun a b => a ⊆ b) := by
  haveI : IsTrans (List String) (fun a b => a ⊆ b) := ⟨fun a b c => List.Subset.trans⟩
  exact List.chain'_iff_pairwise.mp (cluster_run_inner_chain cfg env st)

/-! ## Log-extension lemmas for the error paths -/

theorem log_ext_trans {a b c : List String} (h1 : ∃ r, b = a ++ r) (h2 : ∃ r, c = b ++ r) :
    ∃ r, c = a ++ r := by
  obtain ⟨r1, h1⟩ := h1
  obtain ⟨r2, h2⟩ := h2
  exact ⟨r1 ++ r2, by rw [h2, h1, List.append_assoc]⟩

theorem ite_addFlag_log (c : Prop) [Decidable c] (X : ClusterState) (t : String) :
    (if c then addFlagSt X t else X).log = X.log := by
  split <;> rfl

theorem run_chosen_phase_err_log {cfg : ClusterConfig} {env : RunEnv} {st : ClusterState}
    {ref : Sequence} {e : PyExc} {stE : ClusterState}
    (h : run_chosen_phase cfg env st ref = .error (e, stE)) :
    ∃ r, stE.log = st.log ++ r := by
  unfold run_chosen_phase at h
  split at h
  · simp only [Except.error.injEq, Prod.mk.injEq] at h
    exact ⟨[], by rw [← h.2, List.append_nil]⟩
  · split at h
    · simp only [Except.error.injEq, Prod.mk.injEq] at h
      exact ⟨[], by rw [← h.2, List.append_nil]⟩
    · split at h
      · simp only [Except.error.injEq, Prod.mk.injEq] at h
        exact ⟨_, by rw [← h.2]⟩
      · split at h
        · simp only [Except.error.injEq, Prod.mk.injEq] at h
          exact ⟨_, by rw [← h.2]⟩
        · exact Except.noConfusion h

theorem run_chosen_phase_ok_log {cfg : ClusterConfig} {env : RunEnv} {st : ClusterState}
    {ref : Sequence} {stA : ClusterState} {ares : AssemblyRes}
    (h : run_chosen_phase cfg env st ref = .ok (stA, ares)) :
    ∃ r, stA.log = st.log ++ r := by
  unfold run_chosen_phase at h
  split at h
  · exact Except.noConfusion h
  · split at h
    · exact Except.noConfusion h
    · split at h
      · exact Except.noConfusion h
      · split at h
        · exact Except.noConfusion h
        · simp only [Except.ok.injEq, Prod.mk.injEq] at h
          obtain ⟨h1, -⟩ := h
          subst h1
          by_cases hclean : cfg.clean
          · simp only [clean_file_st, hclean, if_true, List.append_assoc]
            exact ⟨_, rfl⟩
          · simp only [clean_file_st, hclean, if_false, List.append_assoc]
            exact ⟨_, rfl⟩

theorem run_assembled_phase_err_log {env : RunEnv} {st : ClusterState} {ares : AssemblyRes}
    {e : PyExc} {stE : ClusterState} {tr : List (List String)}
    (h : run_assembled_phase env st ares = (.error (e, stE), tr)) :
    ∃ r, stE.log = st.log ++ r := by
  unfold run_assembled_phase at h
  cases hbm : env.bowtie2_map with
  | error e1 =>
      rw [hbm] at h
      dsimp only at h
      simp only [Prod.mk.injEq, Except.error.injEq] at h
      rw [← h.1.2]
      exact ⟨_, rfl⟩
  | ok u =>
      rw [hbm] at h
      dsimp only at h
      cases hcr : env.compare_run with
      | error e2 =>
          rw [hcr] at h
          dsimp only at h
          simp only [Prod.mk.injEq, Except.error.injEq] at h
          rw [← h.1.2]
          simp only [ite_addFlag_log, List.append_assoc]
          exact ⟨_, rfl⟩
      | ok compare_added =>
          rw [hcr] at h
          dsimp only at h
          cases hsr : env.samtools_run with
          | error e3 =>
              rw [hsr] at h
              dsimp only at h
              simp only [Prod.mk.injEq, Except.error.injEq] at h
              rw [← h.1.2]
              simp only [ite_addFlag_log, List.append_assoc]
              exact ⟨_, rfl⟩
          | ok u2 =>
              rw [hsr] at h
              dsimp only at h
              split at h <;> simp at h

theorem run_after_choose_err_log {cfg : ClusterConfig} {env : RunEnv} {st3 : ClusterState}
    {chosen : Option Sequence} {e : PyExc} {stE : ClusterState}
    (h : (run_after_choose cfg env st3 chosen).1 = .error (e, stE)) :
    ∃ r, stE.log = st3.log ++ r := by
  cases chosen with
  | none => simp [run_after_choose] at h
  | some ref =>
      simp only [run_after_choose] at h
      cases hcp : run_chosen_phase cfg env st3 ref with
      | error p =>
          obtain ⟨e1, st1⟩ := p
          rw [hcp] at h
          dsimp only at h
          simp only [Except.error.injEq, Prod.mk.injEq] at h
          rw [← h.2]
          exact run_chosen_phase_err_log hcp
      | ok p =>
          obtain ⟨stA, ares⟩ := p
          rw [hcp] at h
          dsimp only at h
          cases hao : ares.assembled_ok with
          | false => rw [hao] at h; simp at h
          | true =>
              rw [hao] at h
              simp only [if_pos] at h
              cases hph : run_assembled_phase env stA ares with
              | mk res tr =>
                  rw [hph] at h
                  cases res with
                  | error p2 =>
                      obtain ⟨e2, stE2⟩ := p2
                      dsimp only at h
                      simp only [Except.error.injEq, Prod.mk.injEq] at h
                      rw [← h.2]
                      exact log_ext_trans (run_chosen_phase_ok_log hcp)
                        (run_assembled_phase_err_log hph)
                  | ok stB =>
                      dsimp only at h
                      exact Except.noConfusion h

theorem pyCenterPad_decomp (s : String) (w : Nat) (c : Char) :
    ∃ a b, pyCenterPad s w c = a ++ s ++ b := by
  unfold pyCenterPad
  split
  · exact ⟨"", "", by rw [String.empty_append, String.append_empty]⟩
  · exact ⟨_, _, rfl⟩

theorem cluster_run_inner_err_log {cfg : ClusterConfig} {env : RunEnv} {st : ClusterState}
    {e : PyExc} {stE : ClusterState}
    (h : (cluster_run_inner cfg env st).1 = .error (e, stE)) :
    mkStartBanner cfg.name ∈ stE.log := by
  unfold cluster_run_inner at h
  cases hbs : env.best_seq with
  | error e1 =>
      rw [hbs] at h
      dsimp only at h
      simp only [Except.error.injEq, Prod.mk.injEq] at h
      rw [← h.2]
      simp
  | ok chosen =>
      rw [hbs] at h
      dsimp only at h
      obtain ⟨r, hr⟩ := run_after_choose_err_log h
      obtain ⟨r2, hr2⟩ := log_ext_trans
        (clean_file_st_log cfg.clean
          { { st with log := st.log ++ [mkStartBanner cfg.name,
                                        "Choosing best reference sequence:"] } with
              ref_sequence := chosen }
          (cfg.root_dir ++ "/references.fa"))
        (clean_file_st_log cfg.clean _ (cfg.root_dir ++ "/references.fa.fai"))
      rw [hr, hr2]
      simp

/-- C7 (amended): when a pipeline stage of `_run` raises an ariba
`Error` — the class the `except Error` handler of `run` catches — `run`
logs the error in the per-cluster log (which also carries the cluster
name in its start banner), closes the log handle, and propagates an
`Error` naming the cluster: the error is not swallowed and the log is
not left open.  (The two internal `assert` failures raise
`AssertionError`, which the handler does not catch; see the
counterexample.) -/
theorem claim_C7_error_propagation (cfg : ClusterConfig) (env : RunEnv) (st : ClusterState)
    (e : String) (stE : ClusterState)
    (h : (cluster_run_inner cfg env { st with log_open := true }).1
        = .error (.clusterError e, stE)) :
    ∃ stF, (cluster_run cfg env st).1
        = .error (.clusterError ("Error running cluster " ++ cfg.name ++ "!"), stF)
      ∧ stF.log_open = false
      ∧ (∃ m ∈ stF.log, ∃ a, m = a ++ e)
      ∧ (∃ m ∈ stF.log, ∃ a b, m = a ++ cfg.name ++ b) := by
  have hbanner : mkStartBanner cfg.name ∈ stE.log := cluster_run_inner_err_log h
  unfold cluster_run
  dsimp only
  cases hrun : cluster_run_inner cfg env { st with log_open := true } with
  | mk res tr =>
      rw [hrun] at h
      dsimp only at h
      subst h
      dsimp only
      refine ⟨_, rfl, rfl, ?_, ?_⟩
      · exact ⟨"Error running cluster! Error was:\n" ++ e, by simp,
          "Error running cluster! Error was:\n", rfl⟩
      · refine ⟨mkStartBanner cfg.name, by simp [hbanner], ?_⟩
        obtain ⟨a, b, hab⟩ := pyCenterPad_decomp (" LOG FILE START " ++ cfg.name ++ " ") 79 '_'
        refine ⟨a ++ " LOG FILE START ", " " ++ b, ?_⟩
        simp only [mkStartBanner]
        rw [hab]
        simp [String.append_assoc]

/-- Witness for the amended C7: a run whose chooser raises the `Error`
`boom` propagates an `Error` naming the cluster, with the log closed and
both the error and the cluster name present in the log. -/
theorem claim_C7_witness :
    ∃ stF, (cluster_run cfgW7 envW7 (cluster_init [])).1
        = .error (.clusterError ("Error running cluster " ++ cfgW7.name ++ "!"), stF)
      ∧ stF.log_open = false
      ∧ (∃ m ∈ stF.log, ∃ a, m = a ++ "boom")
      ∧ (∃ m ∈ stF.log, ∃ a b, m = a ++ cfgW7.name ++ b) :=
  claim_C7_error_propagation cfgW7 envW7 (cluster_init []) "boom" stEW7 (by rfl)

/-- Counterexample to C7 as stated: in this concrete run the sequence
type lookup for the chosen reference returns null, so the `assert
self.ref_sequence_type is not None` of `_run` raises an
`AssertionError`; `except Error` in `run` does not catch it, the run
propagates the raw `AssertionError` (an exception that does not name the
cluster), nothing is logged about it, and the log handle is left open. -/
theorem claim_C7_counterexample :
    (cluster_run cfgW7b envW7b (cluster_init [])).1
        = .error (.assertionError "assert self.ref_sequence_type is not None failed", stEW7b)
    ∧ stEW7b.log_open = true := by
  constructor
  · with_unfolding_all rfl
  · rfl

end Ariba